import Mathlib

/-!
# Verification of xformers fused matmul backward and attention dispatch

Shallow embedding of `xformers/triton/k_fused_matmul_bw.py` (the fused
backward kernel for a linear + activation block) and, modelled from the
spec, the attention dispatch components exercised by
`tests/test_attentions.py`.

Numeric semantics: tensors of real numbers are modelled over `ℚ` (the
idealised exact arithmetic; the "within floating-point tolerance" clauses
of the spec become exact equality).
-/

namespace Xformers

/-- A 2D view of a tensor buffer: entry at row `i`, column `j`.  Values
outside the valid index range are junk (never read by the code). -/
abbrev Mat : Type := Nat → Nat → ℚ

/-- A tensor: a shape (list of dimensions, row-major contiguous layout) plus
the 2D view of its buffer obtained by flattening all leading dimensions.
This matches contiguous torch tensors, where `flatten(0, 1)` and
`reshape_as` change only the shape metadata, never the buffer. -/
structure Tensor where
  shape : List Nat
  val : Mat

/-- Number of dimensions, `torch.Tensor.ndim`. -/
def Tensor.ndim (t : Tensor) : Nat := t.shape.length

/-- Row count of the 2D view (for a 2D tensor `[m, n]` this is `m`; for a
3D tensor `[b, s, n]`, the row count `b * s` of its `flatten(0, 1)`). -/
def Tensor.rows (t : Tensor) : Nat :=
  match t.shape with
  | [m, _] => m
  | [b, s, _] => b * s
  | _ => 0

/-- Column count (last dimension). -/
def Tensor.cols (t : Tensor) : Nat :=
  match t.shape with
  | [_, n] => n
  | [_, _, n] => n
  | _ => 0

/-- `t.flatten(0, 1)`: merge the two leading dimensions.  On a contiguous
tensor this only rewrites the shape. -/
def Tensor.flatten2 (t : Tensor) : Tensor :=
  match t.shape with
  | b :: s :: rest => { shape := (b * s) :: rest, val := t.val }
  | _ => t

/-- `t.reshape_as(u)`: same buffer, `u`'s shape. -/
def Tensor.reshapeAs (t u : Tensor) : Tensor :=
  { shape := u.shape, val := t.val }

/-- `triton.cdiv`: ceiling division. -/
def cdiv (a b : Nat) : Nat := (a + b - 1) / b

/-- `triton.next_power_of_2`: smallest power of two that is `≥ n`. -/
def nextPow2 (n : Nat) : Nat := 2 ^ Nat.clog 2 n

/-- Ideal dense matrix product with inner dimension `k`
(`torch.matmul` / `triton.ops.matmul`, external collaborators):
`(A B) i j = Σ_{t<k} A i t * B t j`. -/
def matmulQ (k : Nat) (A B : Mat) : Mat :=
  fun i j => ∑ t ∈ Finset.range k, A i t * B t j

/-- `A.transpose(0, 1)` as a 2D view. -/
def transposeM (A : Mat) : Mat := fun i j => A j i

/-- Modelled from the spec: `sum_2d_dim_0` (from
`xformers.triton.sum_strided`, a repository module not present under
`src/`) reduces a 2D tensor of `p` rows along dimension 0, producing the
vector of column sums ("to be finally reduced across tiles by a separate
reduction pass"). -/
def sum_2d_dim_0 (p : Nat) (f : Mat) : Nat → ℚ :=
  fun j => ∑ i ∈ Finset.range p, f i j

/-! ## The `kernel_bw_act` Triton kernel

`kernel_bw_act` computes, tile by tile, the pre-activation gradient
`grad_act = ACTIVATION_GRAD(act_in) * grad_out` and (optionally) per-tile
partial bias sums.  Each output element `(i, j)` of the `M × N` grid is
written exactly once, by the program instance
`(pid_m, pid_n) = (i / BLOCK_M, j / BLOCK_N)` at in-tile offsets
`(i % BLOCK_M, j % BLOCK_N)`; we embed the kernel by the value each such
element receives. -/

/-- The `EVEN_BLOCKS` heuristic of `kernel_bw_act` (line 20):
`M % BLOCK_M == 0 and N % BLOCK_N == 0`. -/
def evenBlocks (M N BM BN : Nat) : Bool :=
  decide (M % BM = 0) && decide (N % BN = 0)

/-- A masked `tl.load` with `other=0.0`: in-range elements are read,
out-of-range elements contribute `0`. -/
def loadMasked (f : Mat) (M N i j : Nat) : ℚ :=
  if i < M ∧ j < N then f i j else 0

/-- Embeds the body of `kernel_bw_act` (lines 70-93) for the element at
global position `(i, j)`: load `act_in` (unmasked on the `EVEN_BLOCKS`
fast path, masked with `other=0.0` otherwise), apply the activation
gradient, load `grad_out` the same way, and multiply.  This is the value
stored into `GRAD_ACT[i, j]` (the store of a boundary tile is masked to
`i < M ∧ j < N`, so only such positions are ever written and read). -/
def kernel_bw_act_elem (even : Bool) (actGrad : ℚ → ℚ) (act_in grad_out : Mat)
    (M N i j : Nat) : ℚ :=
  if even then actGrad (act_in i j) * grad_out i j
  else actGrad (loadMasked act_in M N i j) * loadMasked grad_out M N i j

/-- Embeds the `COMPUTE_D_BIAS` epilogue of `kernel_bw_act` (lines 96-99):
the partial-bias buffer entry at `(pid_m, j)` is the sum, over the
`BLOCK_M` rows of tile `pid_m`, of the tile's `grad_act` values with
out-of-range positions zeroed by `tl.where(mask, grad_act, 0.0)`. -/
def kernel_bw_act_dbias (even : Bool) (BM : Nat) (actGrad : ℚ → ℚ)
    (act_in grad_out : Mat) (M N p j : Nat) : ℚ :=
  ∑ a ∈ Finset.range BM,
    if p * BM + a < M ∧ j < N then
      kernel_bw_act_elem even actGrad act_in grad_out M N (p * BM + a) j
    else 0

/-! ## `fused_matmul_backward` (lines 236-332) -/

/-- The result triple of `fused_matmul_backward`: input gradient, optional
weight gradient, optional bias gradient (a vector of length `len`). -/
structure FusedBWOut where
  grad_in : Tensor
  grad_weight : Option Tensor
  grad_bias : Option (Nat → ℚ)

/-- The pre-activation gradient buffer produced by the `kernel_bw_act`
launch in `fused_matmul_backward` (lines 285-295), as the `M × N` 2D view
read by the subsequent matrix products. -/
def fmb_grad_act (g : ℚ → ℚ) (act_in_ grad_out_ : Mat) (M N BM BN : Nat) : Mat :=
  fun i j => kernel_bw_act_elem (evenBlocks M N BM BN) g act_in_ grad_out_ M N i j

/-- The bias gradient produced by the activation stage: the
`(cdiv M BLOCK_M) × N` partial buffer written by `kernel_bw_act`, reduced
along dimension 0 by `sum_2d_dim_0` (line 298). -/
def fmb_grad_bias_act (g : ℚ → ℚ) (act_in_ grad_out_ : Mat) (M N BM BN : Nat) :
    Nat → ℚ :=
  sum_2d_dim_0 (cdiv M BM)
    (fun p j => kernel_bw_act_dbias (evenBlocks M N BM BN) BM g act_in_ grad_out_ M N p j)

/-- Embeds `fused_matmul_backward` (lines 236-332).

* line 256: `grad_out_` is `grad_out`, flattened over the leading
  dimensions when it is not 2D (contiguity is already handled, line 253);
* line 259: the dimension assertion, modelled as an `Except.error`;
* lines 266-302: when an activation gradient is supplied, launch
  `kernel_bw_act` with `BLOCK_M = min(next_power_of_2(M), 2048)`,
  `BLOCK_N = 16`, fusing the partial bias computation when
  `trainable_bias`, and reduce the partial bias buffer with
  `sum_2d_dim_0`; the reference gradient becomes `grad_act`;
* lines 305-324: when `trainable_weight`, the live code path computes
  `grad_weight = grad_out_.transpose(0, 1) @ inputs_` (the tiled
  `kernel_matmul_transpose` path is disabled by an `if False:` guard);
* line 327: `grad_in = triton.ops.matmul(grad_out_, weight)`;
* lines 329-330: when no activation stage ran and `trainable_bias`,
  `grad_bias = sum_2d_dim_0(grad_out_)`;
* line 332: return `grad_in.reshape_as(inputs)`, `grad_weight` only when
  `trainable_weight`, and `grad_bias`. -/
def fused_matmul_backward (grad_out inputs : Tensor) (act_in : Option Tensor)
    (weight : Tensor) (trainable_weight trainable_bias : Bool)
    (activation_grad : Option (ℚ → ℚ)) : Except String FusedBWOut :=
  let grad_out_ := if grad_out.ndim = 2 then grad_out else grad_out.flatten2
  if grad_out_.cols = weight.rows then
    let M := grad_out_.rows
    let N := grad_out_.cols
    let stage1 : Mat × Option (Nat → ℚ) :=
      match activation_grad with
      | some g =>
        let act_in_ := act_in.getD grad_out_
        let BM := min (nextPow2 M) 2048
        let BN := 16
        (fmb_grad_act g act_in_.val grad_out_.val M N BM BN,
         if trainable_bias then
           some (fmb_grad_bias_act g act_in_.val grad_out_.val M N BM BN)
         else none)
      | none => (grad_out_.val, none)
    let gradOutFinal := stage1.1
    let inputs_ := if inputs.ndim = 2 then inputs else inputs.flatten2
    let grad_weight : Option Tensor :=
      if trainable_weight then
        some { shape := [weight.rows, inputs_.cols],
               val := matmulQ M (transposeM gradOutFinal) inputs_.val }
      else none
    let grad_in : Tensor :=
      { shape := [M, weight.cols], val := matmulQ N gradOutFinal weight.val }
    let grad_bias : Option (Nat → ℚ) :=
      match stage1.2 with
      | some gb => some gb
      | none => if trainable_bias then some (sum_2d_dim_0 M gradOutFinal) else none
    Except.ok { grad_in := grad_in.reshapeAs inputs,
                grad_weight := grad_weight,
                grad_bias := grad_bias }
  else
    Except.error "Incompatible dimensions in between grad_out and weight"

/-! ## Unfused reference computation (spec wording)

These definitions follow the spec's words for the fusion-equivalence law,
to be compared to the fused implementation above: "pre-activation gradient
= activation_grad(act_in) elementwise-times grad_out, grad_bias =
reduction of that gradient along the batch axis, grad_weight =
(pre-activation gradient)^T @ inputs, grad_input = (pre-activation
gradient) @ weight". -/

/-- Spec reference: the pre-activation gradient, elementwise. -/
def spec_pre_act_grad (g : ℚ → ℚ) (act_in grad_out : Mat) : Mat :=
  fun i j => g (act_in i j) * grad_out i j

/-- Spec reference: bias gradient as the reduction of the pre-activation
gradient along the batch axis (rows). -/
def spec_grad_bias (M : Nat) (gradAct : Mat) (j : Nat) : ℚ :=
  ∑ i ∈ Finset.range M, gradAct i j

/-- Spec reference: weight gradient `(pre-activation gradient)^T @ inputs`. -/
def spec_grad_weight (M : Nat) (gradAct inputs : Mat) : Mat :=
  fun n k => ∑ i ∈ Finset.range M, gradAct i n * inputs i k

/-- Spec reference: input gradient `(pre-activation gradient) @ weight`. -/
def spec_grad_input (N : Nat) (gradAct weight : Mat) : Mat :=
  fun i k => ∑ n ∈ Finset.range N, gradAct i n * weight n k

/-! ## Kernel lemmas -/

/-- At a valid position, the kernel element value is the pointwise
pre-activation gradient, on both the fast path and the masked path. -/
theorem kernel_bw_act_elem_valid (even : Bool) (g : ℚ → ℚ) (a go : Mat)
    {M N i j : Nat} (hi : i < M) (hj : j < N) :
    kernel_bw_act_elem even g a go M N i j = g (a i j) * go i j := by
  cases even <;> simp [kernel_bw_act_elem, loadMasked, hi, hj]

/-- Summing a function block-by-block over `P` blocks of size `B` equals
summing it over the flat range `P * B`. -/
theorem sum_blocks (P B : Nat) (h : Nat → ℚ) :
    ∑ p ∈ Finset.range P, ∑ a ∈ Finset.range B, h (p * B + a) =
      ∑ i ∈ Finset.range (P * B), h i := by
  induction P with
  | zero => simp
  | succ P ih =>
    rw [Finset.sum_range_succ, ih, Nat.succ_mul, Finset.sum_range_add]

/-- The block grid covers the whole range: `M ≤ cdiv M B * B` for `B > 0`. -/
theorem le_cdiv_mul {M B : Nat} (hB : 0 < B) : M ≤ cdiv M B * B := by
  have h : M ≤ B • (M ⌈/⌉ B) := le_smul_ceilDiv hB
  simpa [smul_eq_mul, Nat.ceilDiv_eq_add_pred_div, cdiv, Nat.mul_comm] using h

/-- The partial bias buffer, reduced across tiles, is the column sum of the
pointwise pre-activation gradient over the valid rows: no out-of-range row
contributes. -/
theorem fmb_grad_bias_act_eq (g : ℚ → ℚ) (a go : Mat) (M N BM BN : Nat)
    (hBM : 0 < BM) {j : Nat} (hj : j < N) :
    fmb_grad_bias_act g a go M N BM BN j =
      ∑ i ∈ Finset.range M, g (a i j) * go i j := by
  have key : fmb_grad_bias_act g a go M N BM BN j =
      ∑ i ∈ Finset.range (cdiv M BM * BM),
        (if i < M ∧ j < N then
          kernel_bw_act_elem (evenBlocks M N BM BN) g a go M N i j else 0) := by
    rw [← sum_blocks (cdiv M BM) BM (fun i => if i < M ∧ j < N then
      kernel_bw_act_elem (evenBlocks M N BM BN) g a go M N i j else 0)]
    rfl
  rw [key]
  rw [← Finset.sum_subset (Finset.range_subset.2 (le_cdiv_mul hBM))
      (fun i _ hi => if_neg (fun hc => hi (Finset.mem_range.2 hc.1)))]
  exact Finset.sum_congr rfl fun i hi => by
    have hiM : i < M := Finset.mem_range.1 hi
    rw [if_pos ⟨hiM, hj⟩, kernel_bw_act_elem_valid _ _ _ _ hiM hj]

/-- The kernel-produced pre-activation gradient buffer agrees with the spec
reference at every valid position. -/
theorem fmb_grad_act_valid (g : ℚ → ℚ) (a go : Mat) (M N BM BN : Nat)
    {i j : Nat} (hi : i < M) (hj : j < N) :
    fmb_grad_act g a go M N BM BN i j = spec_pre_act_grad g a go i j := by
  unfold fmb_grad_act spec_pre_act_grad
  exact kernel_bw_act_elem_valid _ _ _ _ hi hj

theorem fmb_block_m_pos (M : Nat) : 0 < min (nextPow2 M) 2048 :=
  lt_min (Nat.pos_pow_of_pos _ (by norm_num)) (by norm_num)

/-- C1: for every grad_out (shape `[M, N]`), inputs (`[M, K]`), weight
(`[N, K]`), activation-gradient function and flag setting satisfying the
dimension precondition, `fused_matmul_backward` returns the same
grad_input, grad_weight and grad_bias as the unfused reference
computation: pre-activation gradient `= activation_grad(act_in) *
grad_out` elementwise, grad_bias its reduction along the batch axis,
grad_weight `= (pre-activation gradient)^T @ inputs`, grad_input
`= (pre-activation gradient) @ weight` (exact equality in the idealised
arithmetic). -/
theorem C1_fusion_equivalence (M N K : Nat)
    (grad_out inputs A weight : Tensor) (g : ℚ → ℚ) (tw tb : Bool)
    (hgo : grad_out.shape = [M, N]) (hw : weight.shape = [N, K])
    (hin : inputs.shape = [M, K]) :
    ∃ out : FusedBWOut,
      fused_matmul_backward grad_out inputs (some A) weight tw tb (some g) =
        Except.ok out ∧
      out.grad_in.shape = inputs.shape ∧
      (∀ i < M, ∀ k < K, out.grad_in.val i k =
        spec_grad_input N (spec_pre_act_grad g A.val grad_out.val) weight.val i k) ∧
      (if tw then ∃ gw, out.grad_weight = some gw ∧ gw.shape = [N, K] ∧
          ∀ n < N, ∀ k < K, gw.val n k =
            spec_grad_weight M (spec_pre_act_grad g A.val grad_out.val) inputs.val n k
       else out.grad_weight = none) ∧
      (if tb then ∃ gb, out.grad_bias = some gb ∧
          ∀ j < N, gb j = spec_grad_bias M (spec_pre_act_grad g A.val grad_out.val) j
       else out.grad_bias = none) := by
  have hnd : grad_out.ndim = 2 := by simp [Tensor.ndim, hgo]
  have hndin : inputs.ndim = 2 := by simp [Tensor.ndim, hin]
  have hcols : grad_out.cols = N := by simp [Tensor.cols, hgo]
  have hrows : grad_out.rows = M := by simp [Tensor.rows, hgo]
  have hwrows : weight.rows = N := by simp [Tensor.rows, hw]
  have hwcols : weight.cols = K := by simp [Tensor.cols, hw]
  have hincols : inputs.cols = K := by simp [Tensor.cols, hin]
  simp only [fused_matmul_backward, hnd, hndin, hcols, hrows, hwrows, hwcols,
    hincols, Option.getD_some, eq_self_iff_true, if_true]
  refine ⟨_, rfl, rfl, ?_, ?_, ?_⟩
  · intro i hi k hk
    simp only [Tensor.reshapeAs, matmulQ, spec_grad_input]
    exact Finset.sum_congr rfl fun n hn => by
      rw [fmb_grad_act_valid g A.val grad_out.val M N _ 16 hi (Finset.mem_range.1 hn)]
  · cases tw with
    | false => simp
    | true =>
      rw [if_pos rfl, if_pos rfl]
      refine ⟨_, rfl, rfl, ?_⟩
      intro n hn k hk
      simp only [matmulQ, transposeM, spec_grad_weight]
      exact Finset.sum_congr rfl fun i hi => by
        rw [fmb_grad_act_valid g A.val grad_out.val M N _ 16 (Finset.mem_range.1 hi) hn]
  · cases tb with
    | false => simp
    | true =>
      rw [if_pos rfl]
      refine ⟨fmb_grad_bias_act g A.val grad_out.val M N (nextPow2 M ⊓ 2048) 16, rfl, ?_⟩
      intro j hj
      rw [fmb_grad_bias_act_eq g A.val grad_out.val M N _ 16 (fmb_block_m_pos M) hj]
      rfl

/-- A concrete 1×1 tensor with constant entry `c`. -/
def t11 (c : ℚ) : Tensor := { shape := [1, 1], val := fun _ _ => c }

theorem C1_fusion_equivalence_witness :
    ∃ out : FusedBWOut,
      fused_matmul_backward (t11 2) (t11 7) (some (t11 3)) (t11 5) true true
          (some (fun x => x)) = Except.ok out ∧
      out.grad_in.shape = (t11 7).shape ∧
      (∀ i < 1, ∀ k < 1, out.grad_in.val i k =
        spec_grad_input 1 (spec_pre_act_grad (fun x => x) (t11 3).val (t11 2).val)
          (t11 5).val i k) ∧
      (if true then ∃ gw, out.grad_weight = some gw ∧ gw.shape = [1, 1] ∧
          ∀ n < 1, ∀ k < 1, gw.val n k =
            spec_grad_weight 1 (spec_pre_act_grad (fun x => x) (t11 3).val (t11 2).val)
              (t11 7).val n k
       else out.grad_weight = none) ∧
      (if true then ∃ gb, out.grad_bias = some gb ∧
          ∀ j < 1, gb j = spec_grad_bias 1
            (spec_pre_act_grad (fun x => x) (t11 3).val (t11 2).val) j
       else out.grad_bias = none) :=
  C1_fusion_equivalence 1 1 1 (t11 2) (t11 7) (t11 3) (t11 5) (fun x => x)
    true true rfl rfl rfl

/-- C2: the masked boundary-tile path of `kernel_bw_act` (`EVEN_BLOCKS`
false: out-of-range elements loaded as zero, stores masked) and the
unmasked fast path (`EVEN_BLOCKS` true) compute identical values at every
valid position, for the pre-activation gradient elements and for the
partial bias buffer; moreover the masked path reads nothing out of range:
its results depend only on the in-range elements of `act_in` and
`grad_out`. -/
theorem C2_masking_equivalence (g : ℚ → ℚ) (a go : Mat) (M N BM : Nat) :
    (∀ i j, i < M → j < N →
      kernel_bw_act_elem true g a go M N i j =
        kernel_bw_act_elem false g a go M N i j) ∧
    (∀ p j, kernel_bw_act_dbias true BM g a go M N p j =
        kernel_bw_act_dbias false BM g a go M N p j) ∧
    (∀ a2 go2 : Mat, (∀ i j, i < M → j < N → a2 i j = a i j ∧ go2 i j = go i j) →
      (∀ i j, i < M → j < N →
        kernel_bw_act_elem false g a2 go2 M N i j =
          kernel_bw_act_elem false g a go M N i j) ∧
      (∀ p j, kernel_bw_act_dbias false BM g a2 go2 M N p j =
          kernel_bw_act_dbias false BM g a go M N p j)) := by
  have hval : ∀ (a2 go2 : Mat),
      (∀ i j, i < M → j < N → a2 i j = a i j ∧ go2 i j = go i j) →
      ∀ (e : Bool) (i j : Nat), i < M → j < N →
      kernel_bw_act_elem e g a2 go2 M N i j =
        kernel_bw_act_elem false g a go M N i j := by
    intro a2 go2 hagree e i j hi hj
    rw [kernel_bw_act_elem_valid _ _ _ _ hi hj,
      kernel_bw_act_elem_valid _ _ _ _ hi hj,
      (hagree i j hi hj).1, (hagree i j hi hj).2]
  have hdb : ∀ (a2 go2 : Mat),
      (∀ i j, i < M → j < N → a2 i j = a i j ∧ go2 i j = go i j) →
      ∀ (e : Bool) (p j : Nat),
      kernel_bw_act_dbias e BM g a2 go2 M N p j =
        kernel_bw_act_dbias false BM g a go M N p j := by
    intro a2 go2 hagree e p j
    unfold kernel_bw_act_dbias
    refine Finset.sum_congr rfl fun aa _ => ?_
    by_cases h : p * BM + aa < M ∧ j < N
    · rw [if_pos h, if_pos h, hval a2 go2 hagree e _ _ h.1 h.2]
    · rw [if_neg h, if_neg h]
  have htriv : ∀ i j, i < M → j < N → a i j = a i j ∧ go i j = go i j :=
    fun _ _ _ _ => ⟨rfl, rfl⟩
  exact ⟨fun i j hi hj => hval a go htriv true i j hi hj,
    fun p j => hdb a go htriv true p j,
    fun a2 go2 hagree =>
      ⟨fun i j hi hj => hval a2 go2 hagree false i j hi hj,
       fun p j => hdb a2 go2 hagree false p j⟩⟩

theorem C2_masking_equivalence_witness :
    kernel_bw_act_elem true (fun x => x + 1) (fun i j => (i : ℚ) + j)
        (fun i j => (i : ℚ) * j + 1) 3 5 2 4 =
      kernel_bw_act_elem false (fun x => x + 1) (fun i j => (i : ℚ) + j)
        (fun i j => (i : ℚ) * j + 1) 3 5 2 4 :=
  (C2_masking_equivalence (fun x => x + 1) (fun i j => (i : ℚ) + j)
    (fun i j => (i : ℚ) * j + 1) 3 5 16).1 2 4 (by decide) (by decide)

/-- C3: for every call to `fused_matmul_backward` passing the dimension
check, the returned grad_weight is `none` exactly when `trainable_weight`
is false and the returned grad_bias is `none` exactly when
`trainable_bias` is false; when a flag is true the corresponding gradient
is returned non-`none`. -/
theorem C3_frozen_parameter_skip (grad_out inputs : Tensor)
    (act_in : Option Tensor) (weight : Tensor) (tw tb : Bool)
    (ag : Option (ℚ → ℚ))
    (h : (if grad_out.ndim = 2 then grad_out else grad_out.flatten2).cols =
      weight.rows) :
    ∃ out : FusedBWOut,
      fused_matmul_backward grad_out inputs act_in weight tw tb ag =
        Except.ok out ∧
      (out.grad_weight.isSome ↔ tw = true) ∧
      (out.grad_bias.isSome ↔ tb = true) := by
  simp only [fused_matmul_backward]
  rw [if_pos h]
  refine ⟨_, rfl, ?_, ?_⟩ <;> cases ag <;> cases tw <;> cases tb <;> simp

theorem C3_frozen_parameter_skip_witness :
    ∃ out : FusedBWOut,
      fused_matmul_backward (t11 2) (t11 7) none (t11 5) false false none =
        Except.ok out ∧
      (out.grad_weight.isSome ↔ false = true) ∧
      (out.grad_bias.isSome ↔ false = true) :=
  C3_frozen_parameter_skip (t11 2) (t11 7) none (t11 5) false false none rfl

/-- C8: when `grad_out`'s (flattened) column count differs from the
weight's row count, `fused_matmul_backward` fails with the
dimension-mismatch error before any gradient computation: the result is
the error value and carries no output. -/
theorem C8_dimension_mismatch (grad_out inputs : Tensor)
    (act_in : Option Tensor) (weight : Tensor) (tw tb : Bool)
    (ag : Option (ℚ → ℚ))
    (h : (if grad_out.ndim = 2 then grad_out else grad_out.flatten2).cols ≠
      weight.rows) :
    fused_matmul_backward grad_out inputs act_in weight tw tb ag =
      Except.error "Incompatible dimensions in between grad_out and weight" := by
  simp only [fused_matmul_backward]
  rw [if_neg h]

/-- A concrete 2×1 tensor with constant entry `c`. -/
def t21 (c : ℚ) : Tensor := { shape := [2, 1], val := fun _ _ => c }

theorem C8_dimension_mismatch_witness :
    fused_matmul_backward (t11 2) (t11 7) none (t21 5) true true none =
      Except.error "Incompatible dimensions in between grad_out and weight" :=
  C8_dimension_mismatch (t11 2) (t11 7) none (t21 5) true true none (by decide)

/-- C9 (amended): the `fused_matmul_backward` boundary is a single pure
function taking exactly the seven inputs (grad_output, inputs,
pre_activation_input?, weight, trainable_weight, trainable_bias,
activation_gradient_fn?) and returning the triple (grad_input,
grad_weight?, grad_bias?); the seven inputs suffice (the six of the claim,
which omit the layer input `inputs`, do not: see the counterexample). -/
theorem C9_boundary_signature (grad_out inputs : Tensor)
    (act_in : Option Tensor) (weight : Tensor) (tw tb : Bool)
    (ag : Option (ℚ → ℚ))
    (h : (if grad_out.ndim = 2 then grad_out else grad_out.flatten2).cols =
      weight.rows) :
    ∃ gi gw gb, fused_matmul_backward grad_out inputs act_in weight tw tb ag =
      Except.ok ⟨gi, gw, gb⟩ := by
  simp only [fused_matmul_backward]
  rw [if_pos h]
  exact ⟨_, _, _, rfl⟩

theorem C9_boundary_signature_witness :
    ∃ gi gw gb,
      fused_matmul_backward (t11 2) (t11 7) none (t11 5) true true none =
        Except.ok ⟨gi, gw, gb⟩ :=
  C9_boundary_signature (t11 2) (t11 7) none (t11 5) true true none rfl

/-- Reads entry `(n, k)` of the returned weight gradient (`0` when absent):
used to exhibit the dependence of the result on the `inputs` argument. -/
def fmbGradWeightEntry (r : Except String FusedBWOut) (n k : Nat) : ℚ :=
  match r with
  | Except.ok out =>
    match out.grad_weight with
    | some gw => gw.val n k
    | none => 0
  | Except.error _ => 0

theorem C9_six_inputs_insufficient_cex :
    fmbGradWeightEntry
        (fused_matmul_backward (t11 1) (t11 2) none (t11 1) true false none) 0 0 ≠
      fmbGradWeightEntry
        (fused_matmul_backward (t11 1) (t11 3) none (t11 1) true false none) 0 0 := by
  have h2 : fmbGradWeightEntry
      (fused_matmul_backward (t11 1) (t11 2) none (t11 1) true false none) 0 0 = 2 := by
    simp [fmbGradWeightEntry, fused_matmul_backward, t11, Tensor.ndim, Tensor.cols,
      Tensor.rows, matmulQ, transposeM, Finset.sum_range_succ]
  have h3 : fmbGradWeightEntry
      (fused_matmul_backward (t11 1) (t11 3) none (t11 1) true false none) 0 0 = 3 := by
    simp [fmbGradWeightEntry, fused_matmul_backward, t11, Tensor.ndim, Tensor.cols,
      Tensor.rows, matmulQ, transposeM, Finset.sum_range_succ]
  rw [h2, h3]
  norm_num

/-- C10: when an activation-gradient function is supplied but `act_in` is
`none`, `fused_matmul_backward` substitutes `grad_out` itself for the
missing pre-activation tensor, so the pre-activation gradient is
`activation_grad(grad_out) * grad_out` elementwise; and the returned
grad_input carries the exact shape of `inputs` even when `grad_out`
arrived 2D (flattened leading dimensions) while `inputs` is 3D. -/
theorem C10_act_in_defaults_to_grad_out (M N K b s : Nat)
    (grad_out inputs weight : Tensor) (g : ℚ → ℚ) (tw tb : Bool)
    (hgo : grad_out.shape = [M, N]) (hw : weight.shape = [N, K])
    (hin : inputs.shape = [b, s, K]) :
    ∃ out : FusedBWOut,
      fused_matmul_backward grad_out inputs none weight tw tb (some g) =
        Except.ok out ∧
      out.grad_in.shape = [b, s, K] ∧
      (∀ r < M, ∀ k < K, out.grad_in.val r k =
        spec_grad_input N (spec_pre_act_grad g grad_out.val grad_out.val)
          weight.val r k) := by
  have hnd : grad_out.ndim = 2 := by simp [Tensor.ndim, hgo]
  have hcols : grad_out.cols = N := by simp [Tensor.cols, hgo]
  have hrows : grad_out.rows = M := by simp [Tensor.rows, hgo]
  have hwrows : weight.rows = N := by simp [Tensor.rows, hw]
  have hwcols : weight.cols = K := by simp [Tensor.cols, hw]
  simp only [fused_matmul_backward, hnd, hcols, hrows, hwrows, hwcols,
    Option.getD_none, eq_self_iff_true, if_true]
  refine ⟨_, rfl, ?_, ?_⟩
  · simp [Tensor.reshapeAs, hin]
  · intro r hr k hk
    simp only [Tensor.reshapeAs, matmulQ, spec_grad_input]
    exact Finset.sum_congr rfl fun n hn => by
      rw [fmb_grad_act_valid g grad_out.val grad_out.val M N _ 16 hr
        (Finset.mem_range.1 hn)]

/-- A concrete 1×1×1 tensor with constant entry `c`. -/
def t111 (c : ℚ) : Tensor := { shape := [1, 1, 1], val := fun _ _ => c }

theorem C10_act_in_defaults_to_grad_out_witness :
    ∃ out : FusedBWOut,
      fused_matmul_backward (t11 2) (t111 7) none (t11 5) true true
          (some (fun x => x)) = Except.ok out ∧
      out.grad_in.shape = [1, 1, 1] ∧
      (∀ r < 1, ∀ k < 1, out.grad_in.val r k =
        spec_grad_input 1 (spec_pre_act_grad (fun x => x) (t11 2).val (t11 2).val)
          (t11 5).val r k) :=
  C10_act_in_defaults_to_grad_out 1 1 1 1 1 (t11 2) (t111 7) (t11 5)
    (fun x => x) true true rfl rfl rfl

/-! ## Attention dispatch, modelled from the spec

The `MultiHeadDispatch`, `InputProjection` and attention-variant
implementations of `xformers/components` are repository code not present
under `src/` (only their tests are).  The definitions below are modelled
from the spec, sections 4.1-4.3. -/

/-- Modelled from the spec: attention weights for the variant family
without positional bias (spec section 4.1 and glossary: "weights derive
from pairwise query/key compatibility").  `sim` is the similarity
function over projected query/key rows and `g` the softmax-style
positive weighting transform; weights are normalised per query row. -/
def attnWeight (g : ℚ → ℚ) {s d : Nat}
    (sim : (Fin d → ℚ) → (Fin d → ℚ) → ℚ)
    (Q K : Fin s → Fin d → ℚ) (i j : Fin s) : ℚ :=
  g (sim (Q i) (K j)) / ∑ u : Fin s, g (sim (Q i) (K u))

/-- Modelled from the spec: the attention output, "a weighted aggregation
of value vectors where weights derive from pairwise query/key
compatibility" (spec section 1). -/
def attnOutput (g : ℚ → ℚ) {s d dv : Nat}
    (sim : (Fin d → ℚ) → (Fin d → ℚ) → ℚ)
    (Q K : Fin s → Fin d → ℚ) (V : Fin s → Fin dv → ℚ)
    (i : Fin s) (c : Fin dv) : ℚ :=
  ∑ j : Fin s, attnWeight g sim Q K i j * V j c

/-- The head owning coordinate `c` of the concatenated embedding
(`head_dim = dh` slices): spec section 4.3 step (2). -/
def headOf (H dh : Nat) (c : Fin (H * dh)) : Fin H :=
  ⟨c.val / dh, by
    rcases Nat.eq_zero_or_pos dh with h0 | hpos
    · exact absurd c.isLt (by simp [h0])
    · exact (Nat.div_lt_iff_lt_mul hpos).2 c.isLt⟩

/-- The in-head coordinate of position `c` of the concatenated embedding. -/
def coordOf (H dh : Nat) (c : Fin (H * dh)) : Fin dh :=
  ⟨c.val % dh, by
    rcases Nat.eq_zero_or_pos dh with h0 | hpos
    · exact absurd c.isLt (by simp [h0])
    · exact Nat.mod_lt _ hpos⟩

/-- Slice of a projected embedding row belonging to head `h`. -/
def headSlice (H dh : Nat) (h : Fin H) (x : Fin (H * dh) → ℚ)
    (t : Fin dh) : ℚ :=
  x ⟨h.val * dh + t.val, by
    have h1 : h.val * dh + t.val < (h.val + 1) * dh := by
      have := t.isLt
      rw [Nat.succ_mul]
      omega
    exact Nat.lt_of_lt_of_le h1 (Nat.mul_le_mul_right dh h.isLt)⟩

/-- Modelled from the spec (section 4.3): `MultiHeadDispatch.forward` for
an attention variant without positional bias, with residual dropout at
rate 0 (identity).  Steps: (1) input projections `Wq, Wk, Wv` applied per
position; (2) each projected row split into `H` heads of `dh`
coordinates; (3) the attention variant invoked per head; (4) head outputs
concatenated back into the embedding (coordinate `c'` of the merged
output is coordinate `coordOf c'` of head `headOf c'`); (5) output
projection `Wo` applied per position. -/
def mhdForward (g : ℚ → ℚ) {B s d H dh : Nat}
    (sim : (Fin dh → ℚ) → (Fin dh → ℚ) → ℚ)
    (Wq Wk Wv : (Fin d → ℚ) → Fin (H * dh) → ℚ)
    (Wo : (Fin (H * dh) → ℚ) → Fin d → ℚ)
    (q k v : Fin B → Fin s → Fin d → ℚ)
    (b : Fin B) (i : Fin s) (c : Fin d) : ℚ :=
  Wo (fun merged : Fin (H * dh) =>
      attnOutput g sim
        (fun t => headSlice H dh (headOf H dh merged) (Wq (q b t)))
        (fun t => headSlice H dh (headOf H dh merged) (Wk (k b t)))
        (fun t => headSlice H dh (headOf H dh merged) (Wv (v b t)))
        i (coordOf H dh merged))
    c

/-- Permutation equivariance of the attention weights: weights of the
row-permuted inputs are the weights of the original inputs at the
permuted index pair. -/
theorem attnWeight_perm (g : ℚ → ℚ) {s d : Nat}
    (sim : (Fin d → ℚ) → (Fin d → ℚ) → ℚ)
    (Q K : Fin s → Fin d → ℚ) (σ : Equiv.Perm (Fin s)) (i j : Fin s) :
    attnWeight g sim (fun t => Q (σ t)) (fun t => K (σ t)) i j =
      attnWeight g sim Q K (σ i) (σ j) := by
  unfold attnWeight
  congr 1
  exact Equiv.sum_comp σ fun u => g (sim (Q (σ i)) (K u))

/-- Permutation equivariance of the attention output. -/
theorem attnOutput_perm (g : ℚ → ℚ) {s d dv : Nat}
    (sim : (Fin d → ℚ) → (Fin d → ℚ) → ℚ)
    (Q K : Fin s → Fin d → ℚ) (V : Fin s → Fin dv → ℚ)
    (σ : Equiv.Perm (Fin s)) (i : Fin s) (c : Fin dv) :
    attnOutput g sim (fun t => Q (σ t)) (fun t => K (σ t))
        (fun t => V (σ t)) i c =
      attnOutput g sim Q K V (σ i) c := by
  unfold attnOutput
  rw [← Equiv.sum_comp σ fun j => attnWeight g sim Q K (σ i) j * V j c]
  exact Finset.sum_congr rfl fun j _ => by rw [attnWeight_perm]

/-- C4: for every attention variant without positional bias (weights a
function of pairwise query/key similarity only) and every permutation `σ`
of the sequence axis, applying `σ` identically to the query, key and
value sequence dimension of `MultiHeadDispatch.forward` and then
inverse-permuting the output reproduces the un-permuted output (exactly,
in the idealised arithmetic), at every sequence length `s`. -/
theorem C4_order_invariance (g : ℚ → ℚ) {B s d H dh : Nat}
    (sim : (Fin dh → ℚ) → (Fin dh → ℚ) → ℚ)
    (Wq Wk Wv : (Fin d → ℚ) → Fin (H * dh) → ℚ)
    (Wo : (Fin (H * dh) → ℚ) → Fin d → ℚ)
    (q k v : Fin B → Fin s → Fin d → ℚ)
    (σ : Equiv.Perm (Fin s)) (b : Fin B) (i : Fin s) (c : Fin d) :
    mhdForward g sim Wq Wk Wv Wo
        (fun b' t => q b' (σ t)) (fun b' t => k b' (σ t))
        (fun b' t => v b' (σ t)) b (σ.symm i) c =
      mhdForward g sim Wq Wk Wv Wo q k v b i c := by
  have key : ∀ i' : Fin s,
      mhdForward g sim Wq Wk Wv Wo
          (fun b' t => q b' (σ t)) (fun b' t => k b' (σ t))
          (fun b' t => v b' (σ t)) b i' c =
        mhdForward g sim Wq Wk Wv Wo q k v b (σ i') c := by
    intro i'
    unfold mhdForward
    congr 1
    funext merged
    exact attnOutput_perm g sim
      (fun t => headSlice H dh (headOf H dh merged) (Wq (q b t)))
      (fun t => headSlice H dh (headOf H dh merged) (Wk (k b t)))
      (fun t => headSlice H dh (headOf H dh merged) (Wv (v b t)))
      σ i' (coordOf H dh merged)
  rw [key (σ.symm i), Equiv.apply_symm_apply]

/-- Modelled from the spec (section 4.1): batch broadcast resolution for
one pair of batch sizes: "any non-1 dimension present must match every
other non-1 dimension; violation fails with a dimension-mismatch error". -/
def broadcastBatch (a b : Nat) : Option Nat :=
  if a = b then some a
  else if a = 1 then some b
  else if b = 1 then some a
  else none

/-- Modelled from the spec (section 4.3): the result shape of
`MultiHeadDispatch.forward`: "[batch, seq_q, embedding_dim] ... batch
broadcasting resolves to the maximum non-1 batch size among the three
inputs"; `none` when broadcasting fails. -/
def mhdOutputShape (bq bk bv seq_q dim : Nat) : Option (List Nat) :=
  match broadcastBatch bq bk with
  | none => none
  | some bqk =>
    match broadcastBatch bqk bv with
    | none => none
    | some bb => some [bb, seq_q, dim]

/-- C5: for every combination of query/key/value batch sizes in
{(1,B,B), (B,1,B), (B,B,1), (1,1,B), (B,1,1), (1,B,1)} with `B > 1`,
`MultiHeadDispatch.forward` succeeds and the output shape is
`[B, seq_q, embedding_dim]`: broadcasting resolves to the maximum non-1
batch size. -/
theorem C5_batch_broadcast (bsz seq_q dim : Nat) (hB : 1 < bsz) :
    mhdOutputShape 1 bsz bsz seq_q dim = some [bsz, seq_q, dim] ∧
    mhdOutputShape bsz 1 bsz seq_q dim = some [bsz, seq_q, dim] ∧
    mhdOutputShape bsz bsz 1 seq_q dim = some [bsz, seq_q, dim] ∧
    mhdOutputShape 1 1 bsz seq_q dim = some [bsz, seq_q, dim] ∧
    mhdOutputShape bsz 1 1 seq_q dim = some [bsz, seq_q, dim] ∧
    mhdOutputShape 1 bsz 1 seq_q dim = some [bsz, seq_q, dim] := by
  have h1 : bsz ≠ 1 := by omega
  have h2 : ¬(1 = bsz) := by omega
  refine ⟨?_, ?_, ?_, ?_, ?_, ?_⟩ <;>
    simp [mhdOutputShape, broadcastBatch, h1, h2]

theorem C5_batch_broadcast_witness :
    mhdOutputShape 1 2 2 3 4 = some [2, 3, 4] ∧
    mhdOutputShape 2 1 2 3 4 = some [2, 3, 4] ∧
    mhdOutputShape 2 2 1 3 4 = some [2, 3, 4] ∧
    mhdOutputShape 1 1 2 3 4 = some [2, 3, 4] ∧
    mhdOutputShape 2 1 1 3 4 = some [2, 3, 4] ∧
    mhdOutputShape 1 2 1 3 4 = some [2, 3, 4] :=
  C5_batch_broadcast 2 3 4 (by decide)

/-- C6 (amended): for every query and key with all pairwise similarities
exactly zero (Q·K^T = 0) and any positive-at-zero weighting transform, the
attention output at every query position is the uniform average of the
value vectors, the output is constant across query positions, and two
value tensors whose uniform averages differ produce numerically distinct
outputs (value tensors that merely differ need not: see the
counterexample). -/
theorem C6_uniform_attention (g : ℚ → ℚ) {s d dv : Nat}
    (sim : (Fin d → ℚ) → (Fin d → ℚ) → ℚ) (Q K : Fin s → Fin d → ℚ)
    (hzero : ∀ i j, sim (Q i) (K j) = 0) (hg : g 0 ≠ 0) :
    (∀ (V : Fin s → Fin dv → ℚ) (i : Fin s) (c : Fin dv),
      attnOutput g sim Q K V i c = (∑ j : Fin s, V j c) / s) ∧
    (∀ (V : Fin s → Fin dv → ℚ) (i i' : Fin s) (c : Fin dv),
      attnOutput g sim Q K V i c = attnOutput g sim Q K V i' c) ∧
    (∀ (V W : Fin s → Fin dv → ℚ) (i : Fin s) (c : Fin dv),
      (∑ j : Fin s, V j c) / s ≠ (∑ j : Fin s, W j c) / s →
      attnOutput g sim Q K V i c ≠ attnOutput g sim Q K W i c) := by
  have hout : ∀ (V : Fin s → Fin dv → ℚ) (i : Fin s) (c : Fin dv),
      attnOutput g sim Q K V i c = (∑ j : Fin s, V j c) / s := by
    intro V i c
    have hw : ∀ j : Fin s, attnWeight g sim Q K i j = 1 / (s : ℚ) := by
      intro j
      unfold attnWeight
      rw [hzero i j,
        Finset.sum_congr rfl fun u _ => by rw [hzero i u]]
      rw [Finset.sum_const, Finset.card_univ, Fintype.card_fin, nsmul_eq_mul,
        mul_comm, div_mul_cancel_left₀ hg, inv_eq_one_div]
    unfold attnOutput
    rw [Finset.sum_congr rfl fun j _ => by rw [hw j], ← Finset.mul_sum,
      one_div, inv_mul_eq_div]
  refine ⟨hout, fun V i i' c => by rw [hout V i c, hout V i' c],
    fun V W i c hne => by rw [hout V i c, hout W i c]; exact hne⟩

/-- Dot-product similarity on one-dimensional rows. -/
def sim1 : (Fin 1 → ℚ) → (Fin 1 → ℚ) → ℚ := fun a b => a 0 * b 0

/-- Concrete all-zero query/key matrix (2 positions, 1 coordinate). -/
def Z21 : Fin 2 → Fin 1 → ℚ := fun _ _ => 0

/-- Concrete value tensor `[[0], [2]]` (column average 1). -/
def V6a : Fin 2 → Fin 1 → ℚ := fun j _ => if j.val = 0 then 0 else 2

/-- Concrete value tensor `[[1], [1]]` (column average 1). -/
def V6b : Fin 2 → Fin 1 → ℚ := fun _ _ => 1

theorem C6_uniform_attention_witness :
    attnOutput (fun x => x + 1) sim1 Z21 Z21 V6a 0 0 =
      (∑ j : Fin 2, V6a j 0) / ((2 : ℕ) : ℚ) :=
  (C6_uniform_attention (fun x => x + 1) sim1 Z21 Z21
    (fun i j => by simp [sim1, Z21]) (by norm_num)).1 V6a 0 0

theorem C6_distinctness_cex :
    V6a ≠ V6b ∧
    attnOutput (fun x => x + 1) sim1 Z21 Z21 V6a 0 0 =
      attnOutput (fun x => x + 1) sim1 Z21 Z21 V6b 0 0 := by
  constructor
  · intro h
    have h0 := congrFun (congrFun h 1) 0
    simp [V6a, V6b] at h0
  · simp [attnOutput, attnWeight, V6a, V6b, sim1, Z21, Fin.sum_univ_two]

/-- Modelled from the spec (section 3): `InProjParams` value object
`{input_dim, output_dim, use_bias, init_scheme}` (the init scheme is the
"small initialization" toggle). -/
structure InProjParams where
  input_dim : Nat
  output_dim : Nat
  use_bias : Bool
  small_init : Bool

/-- Structural identity of projection parameters: "same shapes and bias
flag" (spec section 3). -/
def InProjParams.structEq (p q : InProjParams) : Bool :=
  decide (p.input_dim = q.input_dim) && decide (p.output_dim = q.output_dim) &&
    (p.use_bias == q.use_bias)

/-- Modelled from the spec: the constructed `InputProjection` (three
per-stream parameter sets plus the self-attention mode). -/
structure InputProjection where
  qp : InProjParams
  kp : InProjParams
  vp : InProjParams
  self_attention : Bool

/-- Modelled from the spec (sections 3, 4.2): `InputProjection`
construction; `none` for the key/value parameters means "same as query".
"if self_attention=true, all three InProjParams must be structurally
identical (same shapes and bias flag) — violated construction must fail
fast at construction time, not at call time". -/
def mkInputProjection (qp : InProjParams) (kp vp : Option InProjParams)
    (self_attention : Bool) : Except String InputProjection :=
  let kq := kp.getD qp
  let vq := vp.getD qp
  if self_attention && !(qp.structEq kq && qp.structEq vq) then
    Except.error "self-attention requires identical projection parameters"
  else
    Except.ok { qp := qp, kp := kq, vp := vq, self_attention := self_attention }

/-- Modelled from the spec: a runtime tensor argument as passed to
`MultiHeadDispatch.forward`: an object-identity tag `ref` plus the value;
"exactly the same object/reference ... not merely equal in value"
compares `ref`. -/
structure TensorRef where
  ref : Nat
  tval : Mat

/-- Modelled from the spec (section 4.2): the call-time check of a
self-attention-configured `MultiHeadDispatch`: key and value must be the
identical object as query; any divergence is an error. -/
def mhdSelfAttentionCheck (self_attention : Bool) (q k v : TensorRef) :
    Except String Unit :=
  if self_attention && !(decide (k.ref = q.ref) && decide (v.ref = q.ref)) then
    Except.error "self-attention requires key and value to be query"
  else Except.ok ()

/-- C7: constructing an `InputProjection` with self_attention=true and
query/key/value parameters that are not structurally identical fails at
construction time; and calling a self-attention-configured
`MultiHeadDispatch` with a key or value that is not the identical object
as the query fails at call time, even when the offending tensor is
value-equal to the query. -/
theorem C7_self_attention_invariants :
    (∀ qp kp vp : InProjParams, (qp.structEq kp && qp.structEq vp) = false →
      mkInputProjection qp (some kp) (some vp) true =
        Except.error "self-attention requires identical projection parameters") ∧
    (∀ q k v : TensorRef, k.ref ≠ q.ref →
      mhdSelfAttentionCheck true q k v =
        Except.error "self-attention requires key and value to be query") ∧
    (∀ q v : TensorRef, v.ref ≠ q.ref →
      mhdSelfAttentionCheck true q q v =
        Except.error "self-attention requires key and value to be query") ∧
    (∀ q k v : TensorRef, k.tval = q.tval → k.ref ≠ q.ref →
      mhdSelfAttentionCheck true q k v =
        Except.error "self-attention requires key and value to be query") := by
  refine ⟨?_, ?_, ?_, ?_⟩
  · intro qp kp vp h
    simp [mkInputProjection, h]
  · intro q k v h
    simp [mhdSelfAttentionCheck, h]
  · intro q v h
    simp [mhdSelfAttentionCheck, h]
  · intro q k v _ h
    simp [mhdSelfAttentionCheck, h]

theorem C7_self_attention_invariants_witness :
    mkInputProjection ⟨16, 16, true, false⟩ (some ⟨16, 8, false, false⟩)
        (some ⟨16, 8, false, false⟩) true =
      Except.error "self-attention requires identical projection parameters" ∧
    mhdSelfAttentionCheck true ⟨0, fun _ _ => 0⟩ ⟨1, fun _ _ => 0⟩
        ⟨0, fun _ _ => 0⟩ =
      Except.error "self-attention requires key and value to be query" :=
  ⟨(C7_self_attention_invariants).1 ⟨16, 16, true, false⟩ ⟨16, 8, false, false⟩
      ⟨16, 8, false, false⟩ (by decide),
   (C7_self_attention_invariants).2.2.2 ⟨0, fun _ _ => 0⟩ ⟨1, fun _ _ => 0⟩
      ⟨0, fun _ _ => 0⟩ rfl (by decide)⟩

end Xformers
